import Mathlib

set_option autoImplicit false

/-!
Shallow embedding of the row-transformation pipeline of `charts.js`
(`loadCsv`, `toNumberMaybe`, `applySortLimit`, `labelTeamSeason`,
`ensureRequired` and the chart builders), together with proofs of the
specified properties.

Modelling conventions:
* JavaScript values appearing in parsed CSV records are modelled by the
  inductive type `JsValue` with constructors for numbers, strings, `null`
  and `undefined`.  JavaScript numbers are modelled as exact rationals
  (`ℚ`); only their ordering and equality matter to the verified
  properties, and on those the IEEE-754 doubles used by the code agree
  with `ℚ` wherever both are defined.  Non-finite doubles
  (`Infinity`, `-Infinity`, `NaN`) are not representable; the model of
  `Number(string)` returns `none` both for `NaN` and for the non-finite
  results, a deviation that no verified property exercises.
* A record (one parsed CSV row) is an association list from column names
  to values; reading a missing column yields `undefined`, as in
  JavaScript property access.
* The DOM `canvas.dataset` is modelled as a partial map from attribute
  keys to strings (`Dataset`); an absent attribute is `none`.
* `Array.prototype.sort(cmp)` is modelled by `jsSortBy`, a stable
  comparison sort: elements are processed in input order and each is
  placed after every previously placed element that does not compare
  strictly greater.  For a consistent comparator this agrees with every
  stable sort, hence with the ECMA-262 requirement on `sort`; for an
  inconsistent comparator ECMA-262 leaves the order
  implementation-defined and `jsSortBy` is one such implementation.
* `String.prototype.localeCompare` is modelled by code-point comparison
  of the two strings (sign only), the default-locale behaviour for the
  ASCII data the page uses.
* `fetch` and `Papa.parse` are external collaborators; they enter the
  model as explicit function parameters of `loadCsv` and the builders.
-/

/-- A JavaScript value as it occurs in a parsed CSV record. -/
inductive JsValue where
  | num (q : ℚ)
  | str (s : String)
  | nullV
  | undef
deriving DecidableEq

/-- One parsed CSV row: an association list from column name to value. -/
abbrev Record := List (String × JsValue)

/-- JavaScript property read `row[col]` (also `row?.[col]` for a non-null
row): the stored value, or `undefined` when the column is missing. -/
def getField (r : Record) (c : String) : JsValue :=
  (List.lookup c r).getD JsValue.undef

/-- Model of `String.prototype.trim`: drop whitespace from both ends
(list-based so that it reduces definitionally). -/
def jsTrim (s : String) : String :=
  String.mk (((s.toList.dropWhile Char.isWhitespace).reverse.dropWhile
    Char.isWhitespace).reverse)

/-- Model of `String.prototype.toLowerCase` (list-based so that it
reduces definitionally; ASCII, as the configuration values are). -/
def jsToLower (s : String) : String :=
  String.mk (s.toList.map Char.toLower)

/-- The decimal digit character for `n % 10`. -/
def digitChar (n : Nat) : Char :=
  Char.ofNat (48 + n % 10)

/-- Fuel-driven decimal digit expansion of a natural number
(most-significant digit first).  Structural in the fuel so that it
reduces definitionally. -/
def natDigitsFuel : Nat → Nat → List Char
  | 0, _ => []
  | fuel + 1, n => if n < 10 then [digitChar n] else natDigitsFuel fuel (n / 10) ++ [digitChar (n % 10)]

/-- Decimal string of a natural number (model of JS number-to-string for
naturals). -/
def natToStr (n : Nat) : String :=
  String.mk (natDigitsFuel (n + 1) n)

/-- Decimal string of an integer (model of JS number-to-string for
integers; JavaScript prints integral doubles this way). -/
def intToStr (i : Int) : String :=
  if i < 0 then "-" ++ natToStr i.natAbs else natToStr i.natAbs

/-- Value of a list of decimal digit characters (most significant
first). -/
def digitsVal (ds : List Char) : Nat :=
  ds.foldl (fun a c => a * 10 + (c.toNat - 48)) 0

/-- Split an optional leading sign; returns (negative?, rest). -/
def splitSign : List Char → Bool × List Char
  | '+' :: r => (false, r)
  | '-' :: r => (true, r)
  | r => (false, r)

/-- Parse the exponent part of a decimal literal (after the `e`/`E`):
an optional sign followed by at least one digit. -/
def parseExp (cs : List Char) : Option Int :=
  let (neg, ds) := splitSign cs
  if ds ≠ [] ∧ ds.all Char.isDigit then
    some ((if neg then -1 else 1) * (digitsVal ds : Int))
  else none

/-- Parse the mantissa of a decimal literal: digits, an optional decimal
point, digits — with at least one digit overall. -/
def parseMantissa (cs : List Char) : Option ℚ :=
  let ip := cs.takeWhile (fun c => c ≠ '.')
  let rest := cs.drop ip.length
  let fp := rest.drop 1
  if rest ≠ [] ∧ rest.take 1 ≠ ['.'] then none
  else if ip.all Char.isDigit ∧ fp.all Char.isDigit ∧ ¬(ip = [] ∧ fp = []) then
    some ((digitsVal ip : ℚ) + (digitsVal fp : ℚ) / (10 : ℚ) ^ fp.length)
  else none

/-- Parse an unsigned decimal literal with optional exponent. -/
def parseDec (cs : List Char) : Option ℚ :=
  let mant := cs.takeWhile (fun c => c ≠ 'e' ∧ c ≠ 'E')
  let rest := cs.drop mant.length
  match parseMantissa mant with
  | none => none
  | some m =>
    match rest with
    | [] => some m
    | _ :: expPart =>
      match parseExp expPart with
      | none => none
      | some e =>
        some (if 0 ≤ e then m * (10 : ℚ) ^ e.toNat else m / (10 : ℚ) ^ (-e).toNat)

/-- Value of a hexadecimal digit character, if it is one. -/
def hexDigitVal (c : Char) : Option Nat :=
  if '0' ≤ c ∧ c ≤ '9' then some (c.toNat - 48)
  else if 'a' ≤ c ∧ c ≤ 'f' then some (c.toNat - 87)
  else if 'A' ≤ c ∧ c ≤ 'F' then some (c.toNat - 55)
  else none

/-- Parse a string of digits in base `b` via `digVal`, requiring at
least one digit. -/
def parseRadix (digVal : Char → Option Nat) (b : Nat) (cs : List Char) : Option Nat :=
  if cs = [] then none
  else cs.foldl (fun acc c => match acc, digVal c with
    | some a, some d => some (a * b + d)
    | _, _ => none) (some 0)

/-- Model of the JavaScript `Number(string)` conversion, `none` standing
for `NaN` (and, as a documented deviation, for the non-finite results
`Infinity`/`-Infinity`, which the exact-rational model cannot
represent).  Whitespace-only input converts to `0`; a `0x`/`0o`/`0b`
prefix selects hex/octal/binary (no sign allowed); otherwise an
optionally signed decimal literal with optional exponent. -/
def jsNumber (s : String) : Option ℚ :=
  let t := (jsTrim s).toList
  match t with
  | [] => some 0
  | '0' :: x :: rest =>
    if x = 'x' ∨ x = 'X' then (parseRadix hexDigitVal 16 rest).map (fun n => (n : ℚ))
    else if x = 'o' ∨ x = 'O' then
      (parseRadix (fun c => if '0' ≤ c ∧ c ≤ '7' then some (c.toNat - 48) else none) 8 rest).map
        (fun n => (n : ℚ))
    else if x = 'b' ∨ x = 'B' then
      (parseRadix (fun c => if c = '0' ∨ c = '1' then some (c.toNat - 48) else none) 2 rest).map
        (fun n => (n : ℚ))
    else
      let (neg, cs) := splitSign t
      (parseDec cs).map (fun q => if neg then -q else q)
  | _ =>
    let (neg, cs) := splitSign t
    if cs = "Infinity".toList then none
    else (parseDec cs).map (fun q => if neg then -q else q)

/-- Model of `parseInt(s, 10)`: trim, optional sign, then the longest
leading run of decimal digits; `none` stands for `NaN`. -/
def jsParseInt (s : String) : Option Int :=
  let t := (jsTrim s).toList
  let (neg, r) := splitSign t
  let ds := r.takeWhile Char.isDigit
  if ds = [] then none
  else some ((if neg then -1 else 1) * (digitsVal ds : Int))

/-- Smallest power of ten divisible by `den`, when one exists (it does
exactly when `den` has no prime factors besides 2 and 5). -/
def findTen (den : Nat) : Option Nat :=
  (List.range (den + 1)).find? (fun k => (10 : Nat) ^ k % den = 0)

/-- Model of JavaScript number-to-string for the exact-rational number
model: integers print as decimal integers; rationals with a terminating
decimal expansion print with a decimal point (every value a double can
hold terminates); other rationals fall back to a fraction form that no
JavaScript double ever takes. -/
def jsNumToString (q : ℚ) : String :=
  if q.den = 1 then intToStr q.num
  else
    match findTen q.den with
    | some k =>
      let scaled := q.num.natAbs * ((10 : Nat) ^ k / q.den)
      let s := natToStr scaled
      let pad := max (k + 1) s.length
      let p := String.mk (List.replicate (pad - s.length) '0') ++ s
      (if q.num < 0 then "-" else "") ++ p.take (pad - k) ++ "." ++ p.drop (pad - k)
    | none => intToStr q.num ++ "/" ++ natToStr q.den

/-- Model of the JavaScript `String(value)` conversion. -/
def jsToString (v : JsValue) : String :=
  match v with
  | .num q => jsNumToString q
  | .str s => s
  | .nullV => "null"
  | .undef => "undefined"

/-- `toNumberMaybe(v)` from charts.js: a number is returned as is; a
string whose trim is non-empty and which `Number` accepts is returned
parsed; everything else gives `null` (modelled as `none`). -/
def toNumberMaybe (v : JsValue) : Option ℚ :=
  match v with
  | .num q => some q
  | .str s => if jsTrim s ≠ "" ∧ (jsNumber s).isSome then jsNumber s else none
  | _ => none

/-- The `canvas.dataset` attribute map: a partial map from (camel-cased)
attribute key to string value; `none` is an absent attribute. -/
abbrev Dataset := String → Option String

/-- JavaScript truthiness of a string-or-undefined value: true exactly
for a present, non-empty string. -/
def jsTruthy (o : Option String) : Bool :=
  match o with
  | some s => s ≠ ""
  | none => false

/-- The JavaScript idiom `o || d` on a string-or-undefined value. -/
def jsOr (o : Option String) (d : String) : String :=
  match o with
  | some s => if s = "" then d else s
  | none => d

/-- `(canvas.dataset.sortDir || "desc").toLowerCase() === "asc"`. -/
def isAsc (cfg : Dataset) : Bool :=
  jsToLower (jsOr (cfg "sortDir") "desc") = "asc"

/-- `parseInt(canvas.dataset.limit || "0", 10)`; `none` is `NaN`. -/
def limitOf (cfg : Dataset) : Option Int :=
  jsParseInt (jsOr (cfg "limit") "0")

/-- Whether the comparator in `applySortLimit` treats a raw column value
as absent: strictly equal to `undefined`, `null`, or the empty string. -/
def jsAbsent (v : JsValue) : Bool :=
  v = JsValue.undef ∨ v = JsValue.nullV ∨ v = JsValue.str ""

/-- Sign model of `a.localeCompare(b)` (default locale, code-point
order on the ASCII data the page uses). -/
def jsLocaleCompare (a b : String) : ℚ :=
  match compare a b with
  | .lt => -1
  | .eq => 0
  | .gt => 1

/-- The comparison callback passed to `out.sort` in `applySortLimit`.
Only the sign of the result matters.  `asc` is the comparator's
`sortDir === "asc"` test; `col` the configured sort column. -/
def jsCompare (asc : Bool) (col : String) (a b : Record) : ℚ :=
  let avRaw := getField a col
  let bvRaw := getField b col
  if avRaw = bvRaw then 0
  else if jsAbsent avRaw then 1
  else if jsAbsent bvRaw then -1
  else
    match toNumberMaybe avRaw, toNumberMaybe bvRaw with
    | some avNum, some bvNum => if asc then avNum - bvNum else bvNum - avNum
    | _, _ =>
      let avStr := jsToString avRaw
      let bvStr := jsToString bvRaw
      if asc then jsLocaleCompare avStr bvStr else jsLocaleCompare bvStr avStr

/-- Insert `x` after every element of `l` that does not compare strictly
greater than `x`:  one insertion step of the stable-sort model. -/
def insertAfterEq {α : Type} (cmp : α → α → ℚ) (x : α) : List α → List α
  | [] => [x]
  | y :: ys => if cmp x y < 0 then x :: y :: ys else y :: insertAfterEq cmp x ys

/-- Model of `Array.prototype.sort(cmp)`: a stable comparison sort.
Elements are processed in input order; each is inserted after every
already-placed element it does not compare strictly below.  For a
consistent comparator this is the unique stable sort ECMA-262
prescribes. -/
def jsSortBy {α : Type} (cmp : α → α → ℚ) (l : List α) : List α :=
  l.foldl (fun acc x => insertAfterEq cmp x acc) []

/-- The sorting stage of `applySortLimit`: sort only when a sort column
is configured (truthy). -/
def sortStage (rows : List Record) (cfg : Dataset) : List Record :=
  if jsTruthy (cfg "sortCol") then
    jsSortBy (jsCompare (isAsc cfg) ((cfg "sortCol").getD "")) rows
  else rows

/-- `applySortLimit(rows, canvas)` from charts.js: copy the rows, sort
the copy when a sort column is configured, then truncate when the
parsed limit is a number greater than zero (`limit && limit > 0`). -/
def applySortLimit (rows : List Record) (cfg : Dataset) : List Record :=
  let out := sortStage rows cfg
  match limitOf cfg with
  | some n => if 0 < n then out.take n.toNat else out
  | none => out

/-- State-tracking embedding of `applySortLimit`, making the mutation
discipline of the source explicit: `out = rows.slice()` copies the
array, `out.sort(...)` mutates only that copy, and `out.slice(0,limit)`
rebinds `out`.  The second component is the `rows` array as observed
after the call; had the source sorted `rows` in place instead of the
copy, this component would be the sorted list. -/
def applySortLimitTracked (rows : List Record) (cfg : Dataset) : List Record × List Record :=
  let rowsArr := rows
  let out := rowsArr
  let out := if jsTruthy (cfg "sortCol") then
      jsSortBy (jsCompare (isAsc cfg) ((cfg "sortCol").getD "")) out
    else out
  let out := match limitOf cfg with
    | some n => if 0 < n then out.take n.toNat else out
    | none => out
  (out, rowsArr)

/-- The `teamText` subexpression of `labelTeamSeason`: the primary
column value as text, with `undefined`/`null` becoming empty text. -/
def teamTextOf (row : Record) (labelCol : String) : String :=
  let team := getField row labelCol
  if team ≠ JsValue.undef ∧ team ≠ JsValue.nullV then jsToString team else ""

/-- The `seasonText` subexpression of `labelTeamSeason` (with `season`
the already-selected qualifier value). -/
def seasonTextOf (season : JsValue) : String :=
  if season ≠ JsValue.nullV ∧ season ≠ JsValue.undef ∧ season ≠ JsValue.str "" then
    jsToString season
  else ""

/-- `labelTeamSeason(row, labelCol, seasonCol)` from charts.js.  The
`seasonCol` argument is a string or `null`/`undefined` (`none`). -/
def labelTeamSeason (row : Record) (labelCol : String) (seasonCol : Option String) : String :=
  let season := if jsTruthy seasonCol then getField row ((seasonCol).getD "") else JsValue.nullV
  let teamText := teamTextOf row labelCol
  let seasonText := seasonTextOf season
  if seasonText ≠ "" then teamText ++ " (" ++ seasonText ++ ")" else teamText

/-- One required `data-*` attribute is missing for `ensureRequired`:
absent, empty, or trimming to the empty string. -/
def isMissingAttr (cfg : Dataset) (k : String) : Bool :=
  match cfg k with
  | none => true
  | some v => if v = "" then true else jsTrim v = ""

/-- `k.replace(/[A-Z]/g, m => "-" + m.toLowerCase())`: camelCase
attribute key to its `data-*` kebab spelling (without the `data-`). -/
def toKebab (k : String) : String :=
  String.mk (k.toList.foldr
    (fun c acc => if c.isUpper then '-' :: c.toLower :: acc else c :: acc) [])

/-- `Array.prototype.join(sep)` on a list of strings. -/
def jsJoin (sep : String) : List String → String
  | [] => ""
  | [x] => x
  | x :: xs => x ++ sep ++ jsJoin sep xs

/-- The message of the error `ensureRequired` throws for a (non-empty)
list of missing attribute keys. -/
def missingMsg (missing : List String) : String :=
  "Canvas is missing required data-* attributes: " ++
    jsJoin ", " (missing.map (fun k => "data-" ++ toKebab k))

/-- `ensureRequired(canvas, keys)` from charts.js: collect every
required key whose attribute is absent or whitespace-only, and throw a
single error naming all of them when there is at least one. -/
def ensureRequired (cfg : Dataset) (keys : List String) : Except String Unit :=
  let missing := keys.filter (fun k => isMissingAttr cfg k)
  if missing = [] then .ok () else .error (missingMsg missing)

/-- The part of a `fetch` response that `loadCsv` consumes. -/
structure Response where
  ok : Bool
  status : Nat
  text : String

/-- `loadCsv(url)` from charts.js, with the external collaborators
`fetch` and `Papa.parse` passed explicitly.  The `url` is
`canvas.dataset.csv`, a string or `undefined`; `!url` is true for
`undefined` and for the empty string.  Thrown errors are the `.error`
case, carrying the thrown message. -/
def loadCsv (fetch : String → Response) (papa : String → List Record)
    (url : Option String) : Except String (List Record) :=
  if jsTruthy url = false then .error "Missing data-csv attribute on canvas."
  else
    let u := url.getD ""
    let res := fetch u
    if res.ok = false then
      .error ("CSV not found: " ++ u ++ " (" ++ natToStr res.status ++ ")")
    else
      .ok ((papa res.text).filter (fun r => r ≠ []))

/-- The series data `buildWinsLosses` hands to the rendering call. -/
structure WLSeries where
  labels : List String
  wins : List JsValue
  losses : List JsValue
deriving DecidableEq

/-- The series data `buildBar` (and `buildSimpleBar`,
`buildHorizontalBar`) hands to the rendering call. -/
structure BarSeries where
  labels : List String
  vals : List JsValue
deriving DecidableEq

/-- The `seasonCol || null` argument the builders pass to
`labelTeamSeason`, starting from `canvas.dataset.seasonCol || ""`. -/
def seasonArgOf (cfg : Dataset) : Option String :=
  let seasonCol := jsOr (cfg "seasonCol") ""
  if seasonCol = "" then none else some seasonCol

/-- `buildWinsLosses(canvas)` from charts.js up to the rendering call:
validate required attributes, load, sort/limit, derive labels and the
two value series.  `hasCtx` models `get2dContext`; when it is false the
builder silently produces nothing (`none`).  Errors thrown anywhere are
the `.error` case. -/
def buildWinsLosses (fetch : String → Response) (papa : String → List Record)
    (hasCtx : Bool) (cfg : Dataset) : Except String (Option WLSeries) := do
  let _ ← ensureRequired cfg ["csv", "labelCol", "winsCol", "lossesCol"]
  let rowsRaw ← loadCsv fetch papa (cfg "csv")
  let rows := applySortLimit rowsRaw cfg
  let labelCol := (cfg "labelCol").getD ""
  let winsCol := (cfg "winsCol").getD ""
  let lossesCol := (cfg "lossesCol").getD ""
  let labels := rows.map (fun r => labelTeamSeason r labelCol (seasonArgOf cfg))
  let wins := rows.map (fun r => getField r winsCol)
  let losses := rows.map (fun r => getField r lossesCol)
  if hasCtx = false then pure none
  else pure (some { labels := labels, wins := wins, losses := losses })

/-- `buildBar(canvas)` from charts.js up to the rendering call. -/
def buildBar (fetch : String → Response) (papa : String → List Record)
    (hasCtx : Bool) (cfg : Dataset) : Except String (Option BarSeries) := do
  let _ ← ensureRequired cfg ["csv", "labelCol", "yCol"]
  let rowsRaw ← loadCsv fetch papa (cfg "csv")
  let rows := applySortLimit rowsRaw cfg
  let labelCol := (cfg "labelCol").getD ""
  let yCol := (cfg "yCol").getD ""
  let labels := rows.map (fun r => labelTeamSeason r labelCol (seasonArgOf cfg))
  let vals := rows.map (fun r => getField r yCol)
  if hasCtx = false then pure none
  else pure (some { labels := labels, vals := vals })

/-- `buildSimpleBar(canvas)` from charts.js up to the rendering call
(labels are the raw label-column values; the per-bar colours are
cosmetic and not carried in the series model). -/
def buildSimpleBar (fetch : String → Response) (papa : String → List Record)
    (hasCtx : Bool) (cfg : Dataset) : Except String (Option BarSeries) := do
  let _ ← ensureRequired cfg ["csv", "labelCol", "yCol"]
  let rowsRaw ← loadCsv fetch papa (cfg "csv")
  let rows := applySortLimit rowsRaw cfg
  let labelCol := (cfg "labelCol").getD ""
  let yCol := (cfg "yCol").getD ""
  let labels := rows.map (fun r => getField r labelCol)
  let vals := rows.map (fun r => getField r yCol)
  if hasCtx = false then pure none
  else pure (some { labels := labels.map jsToString, vals := vals })

/-- One dataset of the model-comparison chart: model name and one value
per hardcoded metric. -/
structure ModelDataset where
  label : JsValue
  data : List JsValue
deriving DecidableEq

/-- `buildModelComparison(canvas)` from charts.js up to the rendering
call: one dataset per row, reading the hardcoded metric columns. -/
def buildModelComparison (fetch : String → Response) (papa : String → List Record)
    (hasCtx : Bool) (cfg : Dataset) : Except String (Option (List ModelDataset)) := do
  let _ ← ensureRequired cfg ["csv"]
  let rows ← loadCsv fetch papa (cfg "csv")
  let models := rows.map (fun r => getField r "MODEL")
  let metrics := ["ACCURACY", "PRECISION", "RECALL", "F1_SCORE", "ROC_AUC"]
  let datasets := (models.zip (List.range models.length)).map (fun p =>
    { label := p.1, data := metrics.map (fun m => getField (rows.getD p.2 []) m) : ModelDataset })
  if hasCtx = false then pure none
  else pure (some datasets)

/-- One dataset of the ROC-curves chart: a label and (x, y) points. -/
structure RocDataset where
  label : String
  data : List (JsValue × JsValue)
deriving DecidableEq

/-- `buildRocCurves(canvas)` from charts.js up to the rendering call:
one dataset per hardcoded TPR column plus the diagonal reference
line. -/
def buildRocCurves (fetch : String → Response) (papa : String → List Record)
    (hasCtx : Bool) (cfg : Dataset) : Except String (Option (List RocDataset)) := do
  let _ ← ensureRequired cfg ["csv"]
  let rows ← loadCsv fetch papa (cfg "csv")
  let modelNames := ["Logistic Regression (AUC=0.842)", "Random Forest (AUC=0.839)",
    "XGBoost (AUC=0.841)"]
  let tprCols := ["TPR_LR", "TPR_RF", "TPR_XGB"]
  let datasets := (tprCols.zip modelNames).map (fun p =>
    { label := p.2, data := rows.map (fun r => (getField r "FPR", getField r p.1)) : RocDataset })
  let diagData := [(JsValue.num 0, JsValue.num 0), (JsValue.num 1, JsValue.num 1)]
  let diag : RocDataset := { label := "Random Classifier", data := diagData }
  let datasets := datasets ++ [diag]
  if hasCtx = false then pure none
  else pure (some datasets)

/-- `buildHorizontalBar(canvas)` from charts.js up to the rendering call
(the gradient colours are cosmetic and not carried in the series
model). -/
def buildHorizontalBar (fetch : String → Response) (papa : String → List Record)
    (hasCtx : Bool) (cfg : Dataset) : Except String (Option BarSeries) := do
  let _ ← ensureRequired cfg ["csv", "labelCol", "yCol"]
  let rowsRaw ← loadCsv fetch papa (cfg "csv")
  let rows := applySortLimit rowsRaw cfg
  let labelCol := (cfg "labelCol").getD ""
  let yCol := (cfg "yCol").getD ""
  let labels := rows.map (fun r => getField r labelCol)
  let vals := rows.map (fun r => getField r yCol)
  if hasCtx = false then pure none
  else pure (some { labels := labels.map jsToString, vals := vals })

/-- The numeric sort key of a record in the configured column: its
coerced value (`0` as a placeholder when coercion fails; the verified
statements only use it where coercion succeeds). -/
def keyval (col : String) (r : Record) : ℚ :=
  (toNumberMaybe (getField r col)).getD 0

/-- The order `applySortLimit` establishes between two records, for a
direction and sort column: an absent value never precedes a present
one, and among present numeric values the coerced keys are ordered
according to the direction. -/
def sortRel (asc : Bool) (col : String) (a b : Record) : Prop :=
  (jsAbsent (getField a col) = true → jsAbsent (getField b col) = true) ∧
  (jsAbsent (getField a col) = false → jsAbsent (getField b col) = false →
    (if asc then keyval col a ≤ keyval col b else keyval col b ≤ keyval col a))

/-- Remove one attribute from a dataset (for comparing a
whitespace-only attribute with an entirely absent one). -/
def eraseAttr (cfg : Dataset) (k : String) : Dataset :=
  fun j => if j = k then none else cfg j

/-- Concrete fixtures used by the witness and counterexample theorems. -/
def c1rows : List Record :=
  [[("S", JsValue.num 2)], [("S", JsValue.num 1)], [("S", JsValue.nullV)]]

def c1cfg : Dataset :=
  fun k => if k = "sortCol" then some "S" else if k = "sortDir" then some "asc" else none

def c2rows : List Record :=
  [[("S", JsValue.num 5)], [("S", JsValue.str "3x")], [("S", JsValue.str "05")]]

def c2cfg : Dataset :=
  fun k => if k = "sortCol" then some "S" else if k = "sortDir" then some "asc" else none

def c2wrows : List Record :=
  [[("S", JsValue.num 2)], [("T", JsValue.str "a"), ("S", JsValue.num 1)], [("S", JsValue.num 2)]]

def c3rows : List Record :=
  [[("S", JsValue.num 1)], [("S", JsValue.num 3)], [("S", JsValue.num 2)]]

def c3cfg : Dataset :=
  fun k => if k = "sortCol" then some "S" else if k = "limit" then some "2" else none

def okFetch : String → Response := fun _ => { ok := true, status := 200, text := "" }

def badFetch : String → Response := fun _ => { ok := false, status := 404, text := "" }

def emptyPapa : String → List Record := fun _ => []

def c5cfg : Dataset :=
  fun k => if k = "csv" then some "data/teams.csv"
    else if k = "lossesCol" then some "L" else none

def c9papa : String → List Record := fun _ =>
  [[("T", JsValue.str "A"), ("W", JsValue.num 3), ("L", JsValue.num 1)],
   [("T", JsValue.str "B"), ("W", JsValue.num 2), ("L", JsValue.num 2)]]

def c9cfg : Dataset :=
  fun k => if k = "csv" then some "data/teams.csv"
    else if k = "labelCol" then some "T"
    else if k = "winsCol" then some "W"
    else if k = "lossesCol" then some "L" else none

def c9series : WLSeries :=
  { labels := ["A", "B"],
    wins := [JsValue.num 3, JsValue.num 2],
    losses := [JsValue.num 1, JsValue.num 2] }

def c10cfg : Dataset :=
  fun k => if k = "csv" then some "data/teams.csv"
    else if k = "labelCol" then some "  " else none


theorem insertAfterEq_perm {α : Type} (cmp : α → α → ℚ) (x : α) (l : List α) :
    (insertAfterEq cmp x l).Perm (x :: l) := by
  induction l with
  | nil => simp [insertAfterEq]
  | cons y ys ih =>
    simp only [insertAfterEq]
    split
    · exact List.Perm.refl _
    · exact (ih.cons y).trans (List.Perm.swap x y ys)

theorem mem_insertAfterEq {α : Type} (cmp : α → α → ℚ) (x a : α) (l : List α) :
    a ∈ insertAfterEq cmp x l ↔ a = x ∨ a ∈ l := by
  rw [(insertAfterEq_perm cmp x l).mem_iff]
  simp

theorem pairwise_insertAfterEq {α : Type} (R : α → α → Prop) (cmp : α → α → ℚ)
    (htrans : ∀ a b c, R a b → R b c → R a c) (x : α) (l : List α)
    (hx : ∀ y ∈ l, (cmp x y < 0 → R x y) ∧ (¬ cmp x y < 0 → R y x))
    (hl : l.Pairwise R) : (insertAfterEq cmp x l).Pairwise R := by
  induction l with
  | nil => simp [insertAfterEq]
  | cons y ys ih =>
    rcases List.pairwise_cons.1 hl with ⟨hy, hys⟩
    simp only [insertAfterEq]
    by_cases h : cmp x y < 0
    · rw [if_pos h]
      refine List.pairwise_cons.2 ⟨?_, hl⟩
      intro z hz
      rcases List.mem_cons.1 hz with hz1 | hz2
      · rw [hz1]
        exact (hx y (List.mem_cons_self y ys)).1 h
      · exact htrans x y z ((hx y (List.mem_cons_self y ys)).1 h) (hy z hz2)
    · rw [if_neg h]
      refine List.pairwise_cons.2 ⟨?_, ?_⟩
      · intro z hz
        rcases (mem_insertAfterEq cmp x z ys).1 hz with hz1 | hz2
        · rw [hz1]
          exact (hx y (List.mem_cons_self y ys)).2 h
        · exact hy z hz2
      · exact ih (fun w hw => hx w (List.mem_cons_of_mem _ hw)) hys

theorem foldl_insert_pairwise {α : Type} (R : α → α → Prop) (cmp : α → α → ℚ)
    (htrans : ∀ a b c, R a b → R b c → R a c) (S : List α)
    (hc : ∀ a ∈ S, ∀ b ∈ S, (cmp a b < 0 → R a b) ∧ (¬ cmp a b < 0 → R b a)) :
    ∀ (l acc : List α), (∀ a ∈ l, a ∈ S) → (∀ a ∈ acc, a ∈ S) → acc.Pairwise R →
      (List.foldl (fun acc x => insertAfterEq cmp x acc) acc l).Pairwise R := by
  intro l
  induction l with
  | nil => intro acc _ _ h; simpa using h
  | cons x xs ih =>
    intro acc hl hacc hp
    simp only [List.foldl_cons]
    refine ih _ (fun a ha => hl a (List.mem_cons_of_mem _ ha)) ?_ ?_
    · intro a ha
      rcases (mem_insertAfterEq cmp x a acc).1 ha with rfl | ha2
      · exact hl a (List.mem_cons_self _ _)
      · exact hacc a ha2
    · exact pairwise_insertAfterEq R cmp htrans x acc
        (fun y hy => hc x (hl x (List.mem_cons_self _ _)) y (hacc y hy)) hp

theorem jsSortBy_pairwise {α : Type} (R : α → α → Prop) (cmp : α → α → ℚ)
    (htrans : ∀ a b c, R a b → R b c → R a c) (l : List α)
    (hc : ∀ a ∈ l, ∀ b ∈ l, (cmp a b < 0 → R a b) ∧ (¬ cmp a b < 0 → R b a)) :
    (jsSortBy cmp l).Pairwise R := by
  exact foldl_insert_pairwise R cmp htrans l hc l [] (fun a ha => ha) (by simp) (by simp)

theorem foldl_insert_perm {α : Type} (cmp : α → α → ℚ) :
    ∀ (l acc : List α),
      (List.foldl (fun acc x => insertAfterEq cmp x acc) acc l).Perm (acc ++ l) := by
  intro l
  induction l with
  | nil => intro acc; simp
  | cons x xs ih =>
    intro acc
    simp only [List.foldl_cons]
    refine (ih _).trans ?_
    refine ((insertAfterEq_perm cmp x acc).append_right xs).trans ?_
    exact List.perm_middle.symm

theorem jsSortBy_perm {α : Type} (cmp : α → α → ℚ) (l : List α) :
    (jsSortBy cmp l).Perm l := by
  simpa using foldl_insert_perm cmp l []

theorem filter_insertAfterEq {α : Type} (cmp : α → α → ℚ) (k : α → ℚ) (c : ℚ) (x : α)
    (l : List α) (hsorted : l.Pairwise (fun a b => k a ≤ k b))
    (hx : ∀ y ∈ l, (cmp x y < 0 ↔ k x < k y)) :
    (insertAfterEq cmp x l).filter (fun r => k r == c) =
      (if k x = c then l.filter (fun r => k r == c) ++ [x]
       else l.filter (fun r => k r == c)) := by
  induction l with
  | nil =>
    by_cases h : k x = c <;>
      simp [insertAfterEq, List.filter_cons, beq_iff_eq, h]
  | cons y ys ih =>
    rcases List.pairwise_cons.1 hsorted with ⟨hy, hys⟩
    simp only [insertAfterEq]
    by_cases h : cmp x y < 0
    · rw [if_pos h]
      have hxy : k x < k y := (hx y (List.mem_cons_self y ys)).1 h
      by_cases hc : k x = c
      · have hfilter : (y :: ys).filter (fun r => k r == c) = [] := by
          refine List.filter_eq_nil_iff.2 ?_
          intro z hz
          have hkz : k x < k z := by
            rcases List.mem_cons.1 hz with hz1 | hz2
            · rw [hz1]; exact hxy
            · exact lt_of_lt_of_le hxy (hy z hz2)
          simp only [beq_iff_eq]
          rw [← hc]
          exact ne_of_gt hkz
        rw [if_pos hc, hfilter]
        simp [List.filter_cons, beq_iff_eq, hc, hfilter]
      · rw [if_neg hc]
        simp [List.filter_cons, beq_iff_eq, hc]
    · rw [if_neg h]
      have ihy := ih hys (fun w hw => hx w (List.mem_cons_of_mem _ hw))
      by_cases hyc : k y = c <;> by_cases hc : k x = c <;>
        simp [List.filter_cons, beq_iff_eq, hyc, hc, ihy]

theorem foldl_insert_filter {α : Type} (cmp : α → α → ℚ) (k : α → ℚ) (c : ℚ) (S : List α)
    (hiff : ∀ a ∈ S, ∀ b ∈ S, (cmp a b < 0 ↔ k a < k b)) :
    ∀ (l acc : List α), (∀ a ∈ l, a ∈ S) → (∀ a ∈ acc, a ∈ S) →
      acc.Pairwise (fun a b => k a ≤ k b) →
      (List.foldl (fun acc x => insertAfterEq cmp x acc) acc l).filter (fun r => k r == c) =
        acc.filter (fun r => k r == c) ++ l.filter (fun r => k r == c) := by
  intro l
  induction l with
  | nil => intro acc _ _ _; simp
  | cons x xs ih =>
    intro acc hl hacc hp
    simp only [List.foldl_cons]
    have hmem : ∀ a ∈ insertAfterEq cmp x acc, a ∈ S := by
      intro a ha
      rcases (mem_insertAfterEq cmp x a acc).1 ha with ha1 | ha2
      · rw [ha1]; exact hl x (List.mem_cons_self _ _)
      · exact hacc a ha2
    have hpins : (insertAfterEq cmp x acc).Pairwise (fun a b => k a ≤ k b) := by
      refine pairwise_insertAfterEq (fun a b => k a ≤ k b) cmp (fun a b c2 hab hbc => le_trans hab hbc) x acc ?_ hp
      intro y hy
      have hi := hiff x (hl x (List.mem_cons_self _ _)) y (hacc y hy)
      have hi2 := hiff y (hacc y hy) x (hl x (List.mem_cons_self _ _))
      exact ⟨fun h => le_of_lt (hi.1 h), fun h => le_of_not_lt (fun h2 => h (hi.2 h2))⟩
    have step := ih (insertAfterEq cmp x acc)
      (fun a ha => hl a (List.mem_cons_of_mem _ ha)) hmem hpins
    rw [step]
    have hfi := filter_insertAfterEq cmp k c x acc hp
      (fun y hy => hiff x (hl x (List.mem_cons_self _ _)) y (hacc y hy))
    rw [hfi]
    by_cases hc : k x = c <;>
      simp [List.filter_cons, beq_iff_eq, hc, List.append_assoc]

theorem jsSortBy_filter {α : Type} (cmp : α → α → ℚ) (k : α → ℚ) (c : ℚ) (l : List α)
    (hiff : ∀ a ∈ l, ∀ b ∈ l, (cmp a b < 0 ↔ k a < k b)) :
    (jsSortBy cmp l).filter (fun r => k r == c) = l.filter (fun r => k r == c) := by
  simpa using foldl_insert_filter cmp k c l hiff l [] (fun a ha => ha) (by simp) (by simp)

theorem sortRel_trans (asc : Bool) (col : String) :
    ∀ a b c2, sortRel asc col a b → sortRel asc col b c2 → sortRel asc col a c2 := by
  intro a b c2 h1 h2
  refine ⟨fun ha => h2.1 (h1.1 ha), fun hpa hpc => ?_⟩
  by_cases hpb : jsAbsent (getField b col) = true
  · have hac := h2.1 hpb
    rw [hpc] at hac
    cases hac
  · have hpb2 : jsAbsent (getField b col) = false := by
      simpa using hpb
    have i1 := h1.2 hpa hpb2
    have i2 := h2.2 hpb2 hpc
    cases asc
    · simp only [Bool.false_eq_true, if_false] at i1 i2 ⊢
      exact le_trans i2 i1
    · simp only [if_true] at i1 i2 ⊢
      exact le_trans i1 i2

theorem jsCompare_sortRel (asc : Bool) (col : String) (a b : Record)
    (ha : jsAbsent (getField a col) = false → (toNumberMaybe (getField a col)).isSome = true)
    (hb : jsAbsent (getField b col) = false → (toNumberMaybe (getField b col)).isSome = true) :
    (jsCompare asc col a b < 0 → sortRel asc col a b) ∧
    (¬ jsCompare asc col a b < 0 → sortRel asc col b a) := by
  by_cases heq : getField a col = getField b col
  · have h0 : jsCompare asc col a b = 0 := by
      simp [jsCompare, heq]
    constructor
    · intro h
      rw [h0] at h
      norm_num at h
    · intro _
      refine ⟨?_, ?_⟩
      · intro h2
        rw [← heq] at h2
        exact h2
      · intro _ _
        have hk : keyval col a = keyval col b := by
          simp [keyval, heq]
        rw [hk]
        split <;> exact le_refl _
  · by_cases hA : jsAbsent (getField a col) = true
    · have h1 : jsCompare asc col a b = 1 := by
        simp [jsCompare, heq, hA]
      constructor
      · intro h
        rw [h1] at h
        norm_num at h
      · intro _
        refine ⟨fun _ => hA, fun _ hpa => ?_⟩
        rw [hA] at hpa
        cases hpa
    · have hpa : jsAbsent (getField a col) = false := by
        simpa using hA
      by_cases hB : jsAbsent (getField b col) = true
      · have h2 : jsCompare asc col a b = -1 := by
          simp [jsCompare, heq, hpa, hB]
        constructor
        · intro _
          refine ⟨fun habs => ?_, fun _ hpb => ?_⟩
          · rw [hpa] at habs
            cases habs
          · rw [hB] at hpb
            cases hpb
        · intro h
          rw [h2] at h
          norm_num at h
      · have hpb : jsAbsent (getField b col) = false := by
          simpa using hB
        rcases Option.isSome_iff_exists.1 (ha hpa) with ⟨x, hx⟩
        rcases Option.isSome_iff_exists.1 (hb hpb) with ⟨y, hy⟩
        have hcmp : jsCompare asc col a b = if asc then x - y else y - x := by
          simp [jsCompare, heq, hpa, hpb, hx, hy]
        have hka : keyval col a = x := by
          simp [keyval, hx]
        have hkb : keyval col b = y := by
          simp [keyval, hy]
        constructor
        · intro h
          rw [hcmp] at h
          refine ⟨fun habs => ?_, fun _ _ => ?_⟩
          · rw [hpa] at habs
            cases habs
          · rw [hka, hkb]
            cases asc
            · simp only [Bool.false_eq_true, if_false] at h ⊢
              linarith
            · simp only [if_true] at h ⊢
              linarith
        · intro h
          rw [hcmp] at h
          refine ⟨fun habs => ?_, fun _ _ => ?_⟩
          · rw [hpb] at habs
            cases habs
          · rw [hka, hkb]
            cases asc
            · simp only [Bool.false_eq_true, if_false] at h ⊢
              linarith
            · simp only [if_true] at h ⊢
              linarith

theorem sortStage_pairwise (rows : List Record) (cfg : Dataset) (col : String)
    (hcol : cfg "sortCol" = some col) (hc : col ≠ "")
    (H : ∀ r ∈ rows, jsAbsent (getField r col) = false →
      (toNumberMaybe (getField r col)).isSome = true) :
    (sortStage rows cfg).Pairwise (sortRel (isAsc cfg) col) := by
  unfold sortStage
  rw [hcol]
  simp only [jsTruthy, Option.getD_some]
  rw [if_pos (by simpa using hc)]
  exact jsSortBy_pairwise (sortRel (isAsc cfg) col) _ (sortRel_trans _ _) rows
    (fun a haMem b hbMem => jsCompare_sortRel _ _ a b (H a haMem) (H b hbMem))

theorem applySortLimit_pairwise_of (rows : List Record) (cfg : Dataset)
    (R : Record → Record → Prop) (h : (sortStage rows cfg).Pairwise R) :
    (applySortLimit rows cfg).Pairwise R := by
  unfold applySortLimit
  cases hl : limitOf cfg with
  | none => exact h
  | some n =>
    show List.Pairwise R
      (if 0 < n then (sortStage rows cfg).take n.toNat else sortStage rows cfg)
    by_cases hp : 0 < n
    · rw [if_pos hp]
      exact h.sublist (List.take_sublist _ _)
    · rw [if_neg hp]
      exact h

/-- C1: for every non-empty record sequence and configured sort column
(here one whose present values are numerically coercible, the numeric
columns the specification sorts by), `applySortLimit` in `asc` mode
yields coerced values that are non-decreasing among the records whose
value in that column is present (not absent, `null`, or empty text),
in `desc` mode non-increasing, and every record with an absent value
appears after every record with a present value regardless of the
sort direction. -/
theorem applySortLimit_sorted (rows : List Record) (cfg : Dataset) (col : String)
    (hcol : cfg "sortCol" = some col) (hc : col ≠ "") (_hne : rows ≠ [])
    (H : ∀ r ∈ rows, jsAbsent (getField r col) = false →
      (toNumberMaybe (getField r col)).isSome = true) :
    (isAsc cfg = true →
      (applySortLimit rows cfg).Pairwise (fun a b =>
        jsAbsent (getField a col) = false → jsAbsent (getField b col) = false →
          keyval col a ≤ keyval col b)) ∧
    (isAsc cfg = false →
      (applySortLimit rows cfg).Pairwise (fun a b =>
        jsAbsent (getField a col) = false → jsAbsent (getField b col) = false →
          keyval col b ≤ keyval col a)) ∧
    (applySortLimit rows cfg).Pairwise (fun a b =>
      jsAbsent (getField a col) = true → jsAbsent (getField b col) = true) := by
  have hout : (applySortLimit rows cfg).Pairwise (sortRel (isAsc cfg) col) :=
    applySortLimit_pairwise_of rows cfg _ (sortStage_pairwise rows cfg col hcol hc H)
  refine ⟨?_, ?_, ?_⟩
  · intro hAsc
    refine hout.imp ?_
    intro a b hab
    intro hpa hpb
    have h2 := hab.2 hpa hpb
    rw [hAsc] at h2
    simpa using h2
  · intro hAsc
    refine hout.imp ?_
    intro a b hab
    intro hpa hpb
    have h2 := hab.2 hpa hpb
    rw [hAsc] at h2
    simpa using h2
  · exact hout.imp (fun hab => hab.1)

/-- Witness for C1: the hypotheses hold and the conclusion follows at a
concrete ascending sort of two numbers and a `null`. -/
theorem applySortLimit_sorted_witness :
    (c1cfg "sortCol" = some "S" ∧ "S" ≠ ("" : String) ∧ c1rows ≠ [] ∧
      (∀ r ∈ c1rows, jsAbsent (getField r "S") = false →
        (toNumberMaybe (getField r "S")).isSome = true)) ∧
    ((isAsc c1cfg = true →
      (applySortLimit c1rows c1cfg).Pairwise (fun a b =>
        jsAbsent (getField a "S") = false → jsAbsent (getField b "S") = false →
          keyval "S" a ≤ keyval "S" b)) ∧
     (isAsc c1cfg = false →
      (applySortLimit c1rows c1cfg).Pairwise (fun a b =>
        jsAbsent (getField a "S") = false → jsAbsent (getField b "S") = false →
          keyval "S" b ≤ keyval "S" a)) ∧
     (applySortLimit c1rows c1cfg).Pairwise (fun a b =>
        jsAbsent (getField a "S") = true → jsAbsent (getField b "S") = true)) :=
  ⟨⟨by decide, by decide, by decide, by decide⟩,
    applySortLimit_sorted c1rows c1cfg "S" (by decide) (by decide) (by decide) (by decide)⟩

theorem jsCompare_iff_key (asc : Bool) (col : String) (a b : Record)
    (hpa : jsAbsent (getField a col) = false)
    (hsa : (toNumberMaybe (getField a col)).isSome = true)
    (hpb : jsAbsent (getField b col) = false)
    (hsb : (toNumberMaybe (getField b col)).isSome = true) :
    jsCompare asc col a b < 0 ↔
      (if asc then keyval col a else -(keyval col a)) <
        (if asc then keyval col b else -(keyval col b)) := by
  rcases Option.isSome_iff_exists.1 hsa with ⟨x, hx⟩
  rcases Option.isSome_iff_exists.1 hsb with ⟨y, hy⟩
  have hka : keyval col a = x := by simp [keyval, hx]
  have hkb : keyval col b = y := by simp [keyval, hy]
  by_cases heq : getField a col = getField b col
  · have h0 : jsCompare asc col a b = 0 := by
      simp [jsCompare, heq]
    have hxy : x = y := by
      rw [heq] at hx
      rw [hx] at hy
      exact Option.some.inj hy
    rw [h0, hka, hkb, hxy]
    cases asc <;> simp
  · have hcmp : jsCompare asc col a b = if asc then x - y else y - x := by
      simp [jsCompare, heq, hpa, hpb, hx, hy]
    rw [hcmp, hka, hkb]
    cases asc
    · simp only [Bool.false_eq_true, if_false]
      constructor <;> intro h <;> linarith
    · simp only [if_true]
      constructor <;> intro h <;> linarith

/-- C2 amended: on inputs where every record's sort-column value is
present and numerically coercible (the comparator is consistent there),
the sort performed by `applySortLimit` is stable: for every coerced key
value, the subsequence of records carrying that key is unchanged by the
sorting stage, and is preserved in order (as a subsequence) by the
full sort-and-truncate transform. -/
theorem applySortLimit_stable_numeric (rows : List Record) (cfg : Dataset) (col : String)
    (q : ℚ) (hcol : cfg "sortCol" = some col) (hc : col ≠ "")
    (H : ∀ r ∈ rows, jsAbsent (getField r col) = false ∧
      (toNumberMaybe (getField r col)).isSome = true) :
    (sortStage rows cfg).filter (fun r => keyval col r == q) =
      rows.filter (fun r => keyval col r == q) ∧
    ((applySortLimit rows cfg).filter (fun r => keyval col r == q)).Sublist
      (rows.filter (fun r => keyval col r == q)) := by
  have hiff : ∀ a ∈ rows, ∀ b ∈ rows, (jsCompare (isAsc cfg) col a b < 0 ↔
      (fun r => if isAsc cfg then keyval col r else -(keyval col r)) a <
      (fun r => if isAsc cfg then keyval col r else -(keyval col r)) b) := by
    intro a haM b hbM
    exact jsCompare_iff_key (isAsc cfg) col a b (H a haM).1 (H a haM).2 (H b hbM).1 (H b hbM).2
  have hfilter := jsSortBy_filter (jsCompare (isAsc cfg) col)
    (fun r => if isAsc cfg then keyval col r else -(keyval col r))
    (if isAsc cfg then q else -q) rows hiff
  have hpred : ∀ r : Record, ((if isAsc cfg then keyval col r else -(keyval col r)) ==
      (if isAsc cfg then q else -q)) = (keyval col r == q) := by
    intro r
    cases isAsc cfg
    · simp only [Bool.false_eq_true, if_false]
      by_cases h : keyval col r = q
      · simp [h]
      · have h2 : ¬ (-(keyval col r) = -q) := fun h3 => h (neg_inj.1 h3)
        simp [h, h2]
    · simp
  have hs : sortStage rows cfg = jsSortBy (jsCompare (isAsc cfg) col) rows := by
    unfold sortStage
    rw [hcol]
    simp only [jsTruthy, Option.getD_some]
    rw [if_pos (by simpa using hc)]
  have hmain : (sortStage rows cfg).filter (fun r => keyval col r == q) =
      rows.filter (fun r => keyval col r == q) := by
    rw [hs]
    calc (jsSortBy (jsCompare (isAsc cfg) col) rows).filter (fun r => keyval col r == q)
        = (jsSortBy (jsCompare (isAsc cfg) col) rows).filter
            (fun r => ((if isAsc cfg then keyval col r else -(keyval col r)) ==
              (if isAsc cfg then q else -q))) := by
          exact (List.filter_congr (fun a _ => hpred a)).symm
      _ = rows.filter (fun r => ((if isAsc cfg then keyval col r else -(keyval col r)) ==
            (if isAsc cfg then q else -q))) := hfilter
      _ = rows.filter (fun r => keyval col r == q) :=
          List.filter_congr (fun a _ => hpred a)
  refine ⟨hmain, ?_⟩
  unfold applySortLimit
  cases hl : limitOf cfg with
  | none =>
    show ((sortStage rows cfg).filter (fun r => keyval col r == q)).Sublist _
    rw [hmain]
  | some n =>
    show ((if 0 < n then (sortStage rows cfg).take n.toNat
        else sortStage rows cfg).filter (fun r => keyval col r == q)).Sublist _
    by_cases hp : 0 < n
    · rw [if_pos hp, ← hmain]
      exact (List.take_sublist _ _).filter _
    · rw [if_neg hp, hmain]

/-- C2 counterexample: with sort column `S` in `asc` mode, the records
with values `5` (number) and `"05"` (string) compare equal (the
comparator returns `0`; both coerce to the key `5`), the input lists
the number `5` first, yet the output lists `"05"` first: a text value
`"3x"` between them makes the comparator inconsistent, and the stable
sort reorders the equal pair. -/
theorem applySortLimit_not_stable :
    jsCompare (isAsc c2cfg) "S" [("S", JsValue.num 5)] [("S", JsValue.str "05")] = 0 ∧
    keyval "S" [("S", JsValue.num 5)] = keyval "S" [("S", JsValue.str "05")] ∧
    c2rows = [[("S", JsValue.num 5)], [("S", JsValue.str "3x")], [("S", JsValue.str "05")]] ∧
    applySortLimit c2rows c2cfg =
      [[("S", JsValue.str "05")], [("S", JsValue.str "3x")], [("S", JsValue.num 5)]] := by
  with_unfolding_all decide

/-- Witness for the amended C2: hypotheses hold and the conclusion
follows on a concrete all-numeric input with a duplicated key. -/
theorem applySortLimit_stable_numeric_witness :
    (c1cfg "sortCol" = some "S" ∧ "S" ≠ ("" : String) ∧
      (∀ r ∈ c2wrows, jsAbsent (getField r "S") = false ∧
        (toNumberMaybe (getField r "S")).isSome = true)) ∧
    ((sortStage c2wrows c1cfg).filter (fun r => keyval "S" r == (2 : ℚ)) =
      c2wrows.filter (fun r => keyval "S" r == (2 : ℚ)) ∧
     ((applySortLimit c2wrows c1cfg).filter (fun r => keyval "S" r == (2 : ℚ))).Sublist
      (c2wrows.filter (fun r => keyval "S" r == (2 : ℚ)))) :=
  ⟨⟨by decide, by decide, by with_unfolding_all decide⟩,
    applySortLimit_stable_numeric c2wrows c1cfg "S" 2 (by decide) (by decide)
      (by with_unfolding_all decide)⟩

/-- C3: with a configured limit parsing to `N`, if `0 < N < L` then
`applySortLimit` returns exactly `N` records and they are exactly the
first `N` of the fully sorted sequence (`sortStage`); if the limit
parses to `0` or a negative number, or the attribute is absent, all `L`
records are returned. -/
theorem applySortLimit_limit (rows : List Record) (cfg : Dataset) :
    (∀ N : Int, limitOf cfg = some N → 0 < N → N.toNat < rows.length →
      applySortLimit rows cfg = (sortStage rows cfg).take N.toNat ∧
      (applySortLimit rows cfg).length = N.toNat) ∧
    (∀ N : Int, limitOf cfg = some N → N ≤ 0 →
      applySortLimit rows cfg = sortStage rows cfg ∧
      (applySortLimit rows cfg).length = rows.length) ∧
    (cfg "limit" = none →
      applySortLimit rows cfg = sortStage rows cfg ∧
      (applySortLimit rows cfg).length = rows.length) := by
  have hlen : (sortStage rows cfg).length = rows.length := by
    unfold sortStage
    split
    · exact (jsSortBy_perm _ _).length_eq
    · rfl
  have happ : ∀ N : Int, limitOf cfg = some N →
      applySortLimit rows cfg =
        (if 0 < N then (sortStage rows cfg).take N.toNat else sortStage rows cfg) := by
    intro N hN
    unfold applySortLimit
    rw [hN]
  refine ⟨?_, ?_, ?_⟩
  · intro N hN hpos hlt
    rw [happ N hN, if_pos hpos]
    refine ⟨rfl, ?_⟩
    rw [List.length_take, hlen]
    exact min_eq_left (le_of_lt hlt)
  · intro N hN hle
    rw [happ N hN, if_neg (not_lt.2 hle)]
    exact ⟨rfl, hlen⟩
  · intro h
    have h0 : limitOf cfg = some 0 := by
      unfold limitOf
      rw [h]
      decide
    rw [happ 0 h0, if_neg (by norm_num)]
    exact ⟨rfl, hlen⟩

/-- Witness for C3: a parsed limit of 2 on three records keeps exactly
the first two of the sorted sequence. -/
theorem applySortLimit_limit_witness :
    (limitOf c3cfg = some 2 ∧ (0 : Int) < 2 ∧ (2 : Int).toNat < c3rows.length) ∧
    (applySortLimit c3rows c3cfg = (sortStage c3rows c3cfg).take (2 : Int).toNat ∧
      (applySortLimit c3rows c3cfg).length = (2 : Int).toNat) :=
  ⟨⟨by decide, by decide, by decide⟩,
    (applySortLimit_limit c3rows c3cfg).1 2 (by decide) (by decide) (by decide)⟩

theorem natToStr_length_pos (n : Nat) : 0 < (natToStr n).length := by
  unfold natToStr
  have h : (String.mk (natDigitsFuel (n + 1) n)).length = (natDigitsFuel (n + 1) n).length :=
    rfl
  rw [h]
  unfold natDigitsFuel
  split
  · simp
  · simp

theorem intToStr_length_pos (i : Int) : 0 < (intToStr i).length := by
  unfold intToStr
  split
  · rw [String.length_append]
    have := natToStr_length_pos i.natAbs
    omega
  · exact natToStr_length_pos _

theorem jsNumToString_ne_empty (q : ℚ) : jsNumToString q ≠ "" := by
  have hpos : 0 < (jsNumToString q).length := by
    unfold jsNumToString
    split
    · exact intToStr_length_pos _
    · split
      · rw [String.length_append, String.length_append, String.length_append]
        have h1 : ("." : String).length = 1 := rfl
        omega
      · rw [String.length_append, String.length_append]
        have := intToStr_length_pos q.num
        omega
  intro h
  rw [h] at hpos
  simp at hpos

theorem jsToString_ne_empty (v : JsValue) (h : v ≠ JsValue.str "") : jsToString v ≠ "" := by
  cases v with
  | num q => exact jsNumToString_ne_empty q
  | str s =>
    intro h2
    apply h
    simp only [jsToString] at h2
    rw [h2]
  | nullV => simp [jsToString]
  | undef => simp [jsToString]

/-- C4: label derivation converts an absent or `null` primary value to
empty text (never the literal text `null` or `undefined`); with a
configured qualifier column whose value is present and non-empty the
result is the primary text followed by the parenthesised qualifier
text, otherwise exactly the primary text; and the concrete
TEAM/SEASON examples of the specification hold. -/
theorem labelTeamSeason_spec :
    (∀ (row : Record) (c : String),
      (getField row c = JsValue.undef ∨ getField row c = JsValue.nullV) →
      teamTextOf row c = "") ∧
    (∀ (row : Record) (c sc : String), sc ≠ "" →
      (getField row sc ≠ JsValue.undef ∧ getField row sc ≠ JsValue.nullV ∧
        getField row sc ≠ JsValue.str "") →
      labelTeamSeason row c (some sc) =
        teamTextOf row c ++ " (" ++ jsToString (getField row sc) ++ ")") ∧
    (∀ (row : Record) (c : String), labelTeamSeason row c none = teamTextOf row c) ∧
    (∀ (row : Record) (c sc : String),
      (getField row sc = JsValue.undef ∨ getField row sc = JsValue.nullV ∨
        getField row sc = JsValue.str "") →
      labelTeamSeason row c (some sc) = teamTextOf row c) ∧
    labelTeamSeason [("TEAM", JsValue.str "Sixers"), ("SEASON", JsValue.str "1972-73")]
      "TEAM" (some "SEASON") = "Sixers (1972-73)" ∧
    labelTeamSeason [("TEAM", JsValue.str "Sixers"), ("SEASON", JsValue.str "1972-73")]
      "TEAM" none = "Sixers" ∧
    labelTeamSeason [("TEAM", JsValue.str "Sixers"), ("SEASON", JsValue.str "")]
      "TEAM" (some "SEASON") = "Sixers" := by
  refine ⟨?_, ?_, ?_, ?_, by decide, by decide, by decide⟩
  · intro row c h
    unfold teamTextOf
    rcases h with h | h <;> rw [h] <;> simp
  · intro row c sc hsc h
    obtain ⟨h1, h2, h3⟩ := h
    have hval : jsTruthy (some sc) = true := by
      simp [jsTruthy, hsc]
    have hst : seasonTextOf (getField row sc) = jsToString (getField row sc) := by
      unfold seasonTextOf
      rw [if_pos ⟨h2, h1, h3⟩]
    unfold labelTeamSeason
    rw [hval]
    simp only [if_true, Option.getD_some]
    rw [hst, if_pos (jsToString_ne_empty _ h3)]
  · intro row c
    unfold labelTeamSeason
    simp [jsTruthy, seasonTextOf]
  · intro row c sc h
    unfold labelTeamSeason
    by_cases hsc : sc = ""
    · simp [jsTruthy, hsc, seasonTextOf]
    · have hval : jsTruthy (some sc) = true := by
        simp [jsTruthy, hsc]
      rw [hval]
      simp only [if_true, Option.getD_some]
      have hst : seasonTextOf (getField row sc) = "" := by
        unfold seasonTextOf
        rcases h with h | h | h <;> rw [h] <;> simp
      rw [hst]
      simp

/-- Witness for C4: the qualifier branch applied to the concrete
Sixers record. -/
theorem labelTeamSeason_spec_witness :
    (("SEASON" : String) ≠ "" ∧
      getField [("TEAM", JsValue.str "Sixers"), ("SEASON", JsValue.str "1972-73")] "SEASON"
        ≠ JsValue.undef ∧
      getField [("TEAM", JsValue.str "Sixers"), ("SEASON", JsValue.str "1972-73")] "SEASON"
        ≠ JsValue.nullV ∧
      getField [("TEAM", JsValue.str "Sixers"), ("SEASON", JsValue.str "1972-73")] "SEASON"
        ≠ JsValue.str "") ∧
    labelTeamSeason [("TEAM", JsValue.str "Sixers"), ("SEASON", JsValue.str "1972-73")]
        "TEAM" (some "SEASON") =
      teamTextOf [("TEAM", JsValue.str "Sixers"), ("SEASON", JsValue.str "1972-73")] "TEAM"
        ++ " (" ++
        jsToString (getField [("TEAM", JsValue.str "Sixers"),
          ("SEASON", JsValue.str "1972-73")] "SEASON") ++ ")" :=
  ⟨⟨by decide, by decide, by decide, by decide⟩,
    labelTeamSeason_spec.2.1 _ "TEAM" "SEASON" (by decide)
      ⟨by decide, by decide, by decide⟩⟩

theorem ensureRequired_error (cfg : Dataset) (keys : List String)
    (h : keys.filter (fun k => isMissingAttr cfg k) ≠ []) :
    ensureRequired cfg keys =
      .error (missingMsg (keys.filter (fun k => isMissingAttr cfg k))) := by
  unfold ensureRequired
  rw [if_neg h]

theorem buildWinsLosses_validation_error (fetch : String → Response)
    (papa : String → List Record) (hasCtx : Bool) (cfg : Dataset)
    (h : ["csv", "labelCol", "winsCol", "lossesCol"].filter (fun k => isMissingAttr cfg k) ≠ []) :
    buildWinsLosses fetch papa hasCtx cfg =
      .error (missingMsg (["csv", "labelCol", "winsCol", "lossesCol"].filter
        (fun k => isMissingAttr cfg k))) := by
  unfold buildWinsLosses
  rw [ensureRequired_error cfg _ h]
  rfl

theorem buildBar_validation_error (fetch : String → Response)
    (papa : String → List Record) (hasCtx : Bool) (cfg : Dataset)
    (h : ["csv", "labelCol", "yCol"].filter (fun k => isMissingAttr cfg k) ≠ []) :
    buildBar fetch papa hasCtx cfg =
      .error (missingMsg (["csv", "labelCol", "yCol"].filter
        (fun k => isMissingAttr cfg k))) := by
  unfold buildBar
  rw [ensureRequired_error cfg _ h]
  rfl

theorem buildSimpleBar_validation_error (fetch : String → Response)
    (papa : String → List Record) (hasCtx : Bool) (cfg : Dataset)
    (h : ["csv", "labelCol", "yCol"].filter (fun k => isMissingAttr cfg k) ≠ []) :
    buildSimpleBar fetch papa hasCtx cfg =
      .error (missingMsg (["csv", "labelCol", "yCol"].filter
        (fun k => isMissingAttr cfg k))) := by
  unfold buildSimpleBar
  rw [ensureRequired_error cfg _ h]
  rfl

theorem buildModelComparison_validation_error (fetch : String → Response)
    (papa : String → List Record) (hasCtx : Bool) (cfg : Dataset)
    (h : ["csv"].filter (fun k => isMissingAttr cfg k) ≠ []) :
    buildModelComparison fetch papa hasCtx cfg =
      .error (missingMsg (["csv"].filter (fun k => isMissingAttr cfg k))) := by
  unfold buildModelComparison
  rw [ensureRequired_error cfg _ h]
  rfl

theorem buildRocCurves_validation_error (fetch : String → Response)
    (papa : String → List Record) (hasCtx : Bool) (cfg : Dataset)
    (h : ["csv"].filter (fun k => isMissingAttr cfg k) ≠ []) :
    buildRocCurves fetch papa hasCtx cfg =
      .error (missingMsg (["csv"].filter (fun k => isMissingAttr cfg k))) := by
  unfold buildRocCurves
  rw [ensureRequired_error cfg _ h]
  rfl

theorem buildHorizontalBar_validation_error (fetch : String → Response)
    (papa : String → List Record) (hasCtx : Bool) (cfg : Dataset)
    (h : ["csv", "labelCol", "yCol"].filter (fun k => isMissingAttr cfg k) ≠ []) :
    buildHorizontalBar fetch papa hasCtx cfg =
      .error (missingMsg (["csv", "labelCol", "yCol"].filter
        (fun k => isMissingAttr cfg k))) := by
  unfold buildHorizontalBar
  rw [ensureRequired_error cfg _ h]
  rfl

theorem jsJoin_substr (sep x : String) : ∀ parts : List String, x ∈ parts →
    ∃ pre post, jsJoin sep parts = pre ++ x ++ post := by
  intro parts
  induction parts with
  | nil =>
    intro h
    cases h
  | cons y ys ih =>
    intro h
    rcases List.mem_cons.1 h with h1 | h2
    · cases ys with
      | nil =>
        refine ⟨"", "", ?_⟩
        rw [h1]
        simp [jsJoin]
      | cons z zs =>
        refine ⟨"", sep ++ jsJoin sep (z :: zs), ?_⟩
        rw [h1]
        show jsJoin sep (y :: z :: zs) = "" ++ y ++ (sep ++ jsJoin sep (z :: zs))
        simp [jsJoin, String.append_assoc]
    · cases ys with
      | nil =>
        cases h2
      | cons z zs =>
        rcases ih h2 with ⟨pre, post, hpp⟩
        refine ⟨y ++ sep ++ pre, post, ?_⟩
        show jsJoin sep (y :: z :: zs) = y ++ sep ++ pre ++ x ++ post
        simp [jsJoin, hpp, String.append_assoc]

theorem missingMsg_names (missing : List String) (k : String) (hk : k ∈ missing) :
    ∃ pre post, missingMsg missing = pre ++ ("data-" ++ toKebab k) ++ post := by
  have hmem : ("data-" ++ toKebab k) ∈ missing.map (fun k2 => "data-" ++ toKebab k2) :=
    List.mem_map_of_mem _ hk
  rcases jsJoin_substr ", " _ _ hmem with ⟨pre, post, hpp⟩
  refine ⟨"Canvas is missing required data-* attributes: " ++ pre, post, ?_⟩
  unfold missingMsg
  rw [hpp]
  simp [String.append_assoc]

/-- C5: every chart builder, on a configuration in which one or more of
its required keys are absent or empty, fails before loading or
transforming data (the error is produced for every `fetch`/`papa`
collaborator, unconsulted) with the configuration error whose message
enumerates the kebab-cased names of all missing required keys at once. -/
theorem builders_validate (fetch : String → Response) (papa : String → List Record)
    (hasCtx : Bool) (cfg : Dataset) :
    (["csv", "labelCol", "winsCol", "lossesCol"].filter (fun k => isMissingAttr cfg k) ≠ [] →
      buildWinsLosses fetch papa hasCtx cfg =
        .error (missingMsg (["csv", "labelCol", "winsCol", "lossesCol"].filter
          (fun k => isMissingAttr cfg k)))) ∧
    (["csv", "labelCol", "yCol"].filter (fun k => isMissingAttr cfg k) ≠ [] →
      buildBar fetch papa hasCtx cfg =
        .error (missingMsg (["csv", "labelCol", "yCol"].filter
          (fun k => isMissingAttr cfg k)))) ∧
    (["csv", "labelCol", "yCol"].filter (fun k => isMissingAttr cfg k) ≠ [] →
      buildSimpleBar fetch papa hasCtx cfg =
        .error (missingMsg (["csv", "labelCol", "yCol"].filter
          (fun k => isMissingAttr cfg k)))) ∧
    (["csv"].filter (fun k => isMissingAttr cfg k) ≠ [] →
      buildModelComparison fetch papa hasCtx cfg =
        .error (missingMsg (["csv"].filter (fun k => isMissingAttr cfg k)))) ∧
    (["csv"].filter (fun k => isMissingAttr cfg k) ≠ [] →
      buildRocCurves fetch papa hasCtx cfg =
        .error (missingMsg (["csv"].filter (fun k => isMissingAttr cfg k)))) ∧
    (["csv", "labelCol", "yCol"].filter (fun k => isMissingAttr cfg k) ≠ [] →
      buildHorizontalBar fetch papa hasCtx cfg =
        .error (missingMsg (["csv", "labelCol", "yCol"].filter
          (fun k => isMissingAttr cfg k)))) ∧
    (∀ (missing : List String) (k : String), k ∈ missing →
      ∃ pre post, missingMsg missing = pre ++ ("data-" ++ toKebab k) ++ post) :=
  ⟨buildWinsLosses_validation_error fetch papa hasCtx cfg,
   buildBar_validation_error fetch papa hasCtx cfg,
   buildSimpleBar_validation_error fetch papa hasCtx cfg,
   buildModelComparison_validation_error fetch papa hasCtx cfg,
   buildRocCurves_validation_error fetch papa hasCtx cfg,
   buildHorizontalBar_validation_error fetch papa hasCtx cfg,
   missingMsg_names⟩

/-- Witness for C5: with `labelCol` and `winsCol` missing, the
wins-losses builder fails with the message naming both. -/
theorem builders_validate_witness :
    (["csv", "labelCol", "winsCol", "lossesCol"].filter (fun k => isMissingAttr c5cfg k)
      ≠ []) ∧
    buildWinsLosses okFetch emptyPapa true c5cfg =
      .error (missingMsg (["csv", "labelCol", "winsCol", "lossesCol"].filter
        (fun k => isMissingAttr c5cfg k))) :=
  ⟨by decide, (builders_validate okFetch emptyPapa true c5cfg).1 (by decide)⟩

/-- C6 amended: `loadCsv` fails exactly when the URL is absent/empty or
the fetch completes with a non-success status.  In the non-success
case the error carries both the attempted URL and the status code; in
the absent/empty-URL case the error is the fixed message naming the
missing `data-csv` attribute, which carries neither. -/
theorem loadCsv_errors (fetch : String → Response) (papa : String → List Record)
    (url : Option String) :
    ((∃ e, loadCsv fetch papa url = .error e) ↔
      (jsTruthy url = false ∨ (fetch (url.getD "")).ok = false)) ∧
    (∀ u, url = some u → u ≠ "" → (fetch u).ok = false →
      loadCsv fetch papa url =
        .error ("CSV not found: " ++ u ++ " (" ++ natToStr (fetch u).status ++ ")")) ∧
    (jsTruthy url = false →
      loadCsv fetch papa url = .error "Missing data-csv attribute on canvas.") := by
  refine ⟨⟨?_, ?_⟩, ?_, ?_⟩
  · intro he
    rcases he with ⟨e, he⟩
    by_cases h1 : jsTruthy url = false
    · exact Or.inl h1
    · right
      unfold loadCsv at he
      rw [if_neg h1] at he
      by_cases h2 : (fetch (url.getD "")).ok = false
      · exact h2
      · rw [if_neg h2] at he
        cases he
  · intro h
    rcases h with h | h
    · exact ⟨_, by unfold loadCsv; rw [if_pos h]⟩
    · by_cases h1 : jsTruthy url = false
      · exact ⟨_, by unfold loadCsv; rw [if_pos h1]⟩
      · exact ⟨_, by unfold loadCsv; rw [if_neg h1, if_pos h]⟩
  · intro u hu hne hok
    subst hu
    unfold loadCsv
    have h1 : ¬ (jsTruthy (some u) = false) := by
      simp [jsTruthy, hne]
    rw [if_neg h1]
    simp only [Option.getD_some]
    rw [if_pos hok]
  · intro h
    unfold loadCsv
    rw [if_pos h]

/-- C6 counterexample: with the URL absent, `loadCsv` fails, but the
thrown message is the fixed text naming the missing attribute; the
message contains no digit at all, so it carries no status code (and no
URL either), refuting the claim that every such failure carries
both. -/
theorem loadCsv_missing_url_uninformative :
    loadCsv badFetch emptyPapa none = .error "Missing data-csv attribute on canvas." ∧
    ("Missing data-csv attribute on canvas.".toList.all (fun c => !c.isDigit)) = true :=
  ⟨rfl, by decide⟩

/-- Witness for the amended C6: a 404 on a present URL produces the
message carrying the URL and the status code. -/
theorem loadCsv_errors_witness :
    (("data.csv" : String) ≠ "" ∧ (badFetch "data.csv").ok = false) ∧
    loadCsv badFetch emptyPapa (some "data.csv") =
      .error ("CSV not found: " ++ "data.csv" ++ " (" ++
        natToStr (badFetch "data.csv").status ++ ")") :=
  ⟨⟨by decide, rfl⟩,
    (loadCsv_errors badFetch emptyPapa (some "data.csv")).2.1 "data.csv" rfl
      (by decide) rfl⟩

/-- C7: `toNumberMaybe` is a total function with no error case: a value
already numeric is returned itself; non-blank text that the number
conversion accepts is returned parsed; and every remaining case
(absent, `null`, blank text, text the conversion rejects) yields
`null` (`none`). -/
theorem toNumberMaybe_spec :
    (∀ q : ℚ, toNumberMaybe (JsValue.num q) = some q) ∧
    (∀ (s : String) (q : ℚ), jsTrim s ≠ "" → jsNumber s = some q →
      toNumberMaybe (JsValue.str s) = some q) ∧
    (∀ s : String, jsTrim s = "" → toNumberMaybe (JsValue.str s) = none) ∧
    (∀ s : String, jsNumber s = none → toNumberMaybe (JsValue.str s) = none) ∧
    toNumberMaybe JsValue.nullV = none ∧
    toNumberMaybe JsValue.undef = none := by
  refine ⟨fun q => rfl, ?_, ?_, ?_, rfl, rfl⟩
  · intro s q h1 h2
    show (if jsTrim s ≠ "" ∧ (jsNumber s).isSome = true then jsNumber s else none) = some q
    rw [if_pos ⟨h1, by rw [h2]; rfl⟩]
    exact h2
  · intro s h
    show (if jsTrim s ≠ "" ∧ (jsNumber s).isSome = true then jsNumber s else none) = none
    rw [if_neg (fun hc => hc.1 h)]
  · intro s h
    show (if jsTrim s ≠ "" ∧ (jsNumber s).isSome = true then jsNumber s else none) = none
    rw [if_neg (fun hc => by rw [h] at hc; exact Bool.noConfusion hc.2)]

/-- Witness for C7: the text `42` is non-blank, parses, and is coerced
to the number it denotes. -/
theorem toNumberMaybe_spec_witness :
    (jsTrim "42" ≠ "" ∧ jsNumber "42" = some 42) ∧
    toNumberMaybe (JsValue.str "42") = some 42 :=
  ⟨⟨by decide, by with_unfolding_all decide⟩,
    toNumberMaybe_spec.2.1 "42" 42 (by decide) (by with_unfolding_all decide)⟩

/-- C8: `applySortLimit` never mutates its input.  In the
state-tracking embedding (where `Array.prototype.sort` mutates the
array it is called on, here the `rows.slice()` copy) the `rows` array
observed after the call is the input itself — same length, same
elements, same order — while the first component is the usual
sorted/truncated result. -/
theorem applySortLimit_pure (rows : List Record) (cfg : Dataset) :
    (applySortLimitTracked rows cfg).2 = rows ∧
    (applySortLimitTracked rows cfg).2.length = rows.length ∧
    (applySortLimitTracked rows cfg).1 = applySortLimit rows cfg :=
  ⟨rfl, rfl, rfl⟩

/-- C9: whenever a builder succeeds in producing series data, the label
sequence has the same length as every value sequence derived from the
same record sequence, and that common length is the post-sort/limit
record count. -/
theorem builder_series_lengths (fetch : String → Response) (papa : String → List Record)
    (hasCtx : Bool) (cfg : Dataset) :
    (∀ s : WLSeries, buildWinsLosses fetch papa hasCtx cfg = .ok (some s) →
      s.labels.length = s.wins.length ∧ s.wins.length = s.losses.length ∧
      (∀ rowsRaw, loadCsv fetch papa (cfg "csv") = .ok rowsRaw →
        s.labels.length = (applySortLimit rowsRaw cfg).length)) ∧
    (∀ s : BarSeries, buildBar fetch papa hasCtx cfg = .ok (some s) →
      s.labels.length = s.vals.length ∧
      (∀ rowsRaw, loadCsv fetch papa (cfg "csv") = .ok rowsRaw →
        s.labels.length = (applySortLimit rowsRaw cfg).length)) := by
  constructor
  · intro s hs
    unfold buildWinsLosses at hs
    cases h1 : ensureRequired cfg ["csv", "labelCol", "winsCol", "lossesCol"] with
    | error e =>
      rw [h1] at hs
      exact Except.noConfusion hs
    | ok u =>
      rw [h1] at hs
      cases h2 : loadCsv fetch papa (cfg "csv") with
      | error e =>
        rw [h2] at hs
        exact Except.noConfusion hs
      | ok rows =>
        rw [h2] at hs
        cases hasCtx with
        | false =>
          have hs2 : (Except.ok none : Except String (Option WLSeries)) = .ok (some s) := hs
          have := Except.ok.inj hs2
          exact Option.noConfusion this
        | true =>
          have hs2 : (Except.ok (some
              { labels := (applySortLimit rows cfg).map (fun r =>
                  labelTeamSeason r ((cfg "labelCol").getD "") (seasonArgOf cfg)),
                wins := (applySortLimit rows cfg).map (fun r =>
                  getField r ((cfg "winsCol").getD "")),
                losses := (applySortLimit rows cfg).map (fun r =>
                  getField r ((cfg "lossesCol").getD "")) : WLSeries }) :
              Except String (Option WLSeries)) = .ok (some s) := hs
          have h3 := Option.some.inj (Except.ok.inj hs2)
          rw [← h3]
          refine ⟨by simp, by simp, ?_⟩
          intro rowsRaw hR
          have h4 := Except.ok.inj hR
          rw [← h4]
          simp
  · intro s hs
    unfold buildBar at hs
    cases h1 : ensureRequired cfg ["csv", "labelCol", "yCol"] with
    | error e =>
      rw [h1] at hs
      exact Except.noConfusion hs
    | ok u =>
      rw [h1] at hs
      cases h2 : loadCsv fetch papa (cfg "csv") with
      | error e =>
        rw [h2] at hs
        exact Except.noConfusion hs
      | ok rows =>
        rw [h2] at hs
        cases hasCtx with
        | false =>
          have hs2 : (Except.ok none : Except String (Option BarSeries)) = .ok (some s) := hs
          have := Except.ok.inj hs2
          exact Option.noConfusion this
        | true =>
          have hs2 : (Except.ok (some
              { labels := (applySortLimit rows cfg).map (fun r =>
                  labelTeamSeason r ((cfg "labelCol").getD "") (seasonArgOf cfg)),
                vals := (applySortLimit rows cfg).map (fun r =>
                  getField r ((cfg "yCol").getD "")) : BarSeries }) :
              Except String (Option BarSeries)) = .ok (some s) := hs
          have h3 := Option.some.inj (Except.ok.inj hs2)
          rw [← h3]
          refine ⟨by simp, ?_⟩
          intro rowsRaw hR
          have h4 := Except.ok.inj hR
          rw [← h4]
          simp

/-- Witness for C9: a successful wins-losses build over two records
yields label, wins and losses sequences of the common length 2. -/
theorem builder_series_lengths_witness :
    buildWinsLosses okFetch c9papa true c9cfg = .ok (some c9series) ∧
    (c9series.labels.length = c9series.wins.length ∧
      c9series.wins.length = c9series.losses.length ∧
      (∀ rowsRaw, loadCsv okFetch c9papa (c9cfg "csv") = .ok rowsRaw →
        c9series.labels.length = (applySortLimit rowsRaw c9cfg).length)) :=
  ⟨by with_unfolding_all rfl,
    (builder_series_lengths okFetch c9papa true c9cfg).1 c9series
      (by with_unfolding_all rfl)⟩

theorem isMissingAttr_erase (cfg : Dataset) (k w : String) (hw : cfg k = some w)
    (hws : jsTrim w = "") :
    ∀ j, isMissingAttr (eraseAttr cfg k) j = isMissingAttr cfg j := by
  intro j
  unfold isMissingAttr eraseAttr
  by_cases hj : j = k
  · rw [if_pos hj, hj, hw]
    by_cases hw0 : w = ""
    · simp [hw0]
    · simp [hw0, hws]
  · rw [if_neg hj]

theorem missing_filter_erase (cfg : Dataset) (k w : String) (hw : cfg k = some w)
    (hws : jsTrim w = "") (keys : List String) :
    keys.filter (fun j => isMissingAttr (eraseAttr cfg k) j) =
      keys.filter (fun j => isMissingAttr cfg j) :=
  List.filter_congr (fun j _ => isMissingAttr_erase cfg k w hw hws j)

theorem isMissingAttr_of_whitespace (cfg : Dataset) (k w : String) (hw : cfg k = some w)
    (hws : jsTrim w = "") : isMissingAttr cfg k = true := by
  unfold isMissingAttr
  rw [hw]
  by_cases hw0 : w = ""
  · simp [hw0]
  · simp [hw0, hws]

theorem missing_filter_ne_nil (cfg : Dataset) (k : String) (hmiss : isMissingAttr cfg k = true)
    (keys : List String) (hk : k ∈ keys) :
    keys.filter (fun j => isMissingAttr cfg j) ≠ [] := by
  intro h
  have hmem : k ∈ keys.filter (fun j => isMissingAttr cfg j) :=
    List.mem_filter.2 ⟨hk, hmiss⟩
  rw [h] at hmem
  cases hmem

/-- C10: a required attribute present but consisting only of whitespace
is treated exactly like an absent attribute: `ensureRequired` returns
the same result on the configuration with the attribute erased, and
every builder whose required keys include it fails with the same
missing-key configuration error on both configurations. -/
theorem whitespace_attr_missing (cfg : Dataset) (k w : String)
    (hw : cfg k = some w) (_hwe : w ≠ "") (hws : jsTrim w = "") :
    (∀ keys, ensureRequired (eraseAttr cfg k) keys = ensureRequired cfg keys) ∧
    (∀ (fetch : String → Response) (papa : String → List Record) (hasCtx : Bool),
      k ∈ ["csv", "labelCol", "winsCol", "lossesCol"] →
      buildWinsLosses fetch papa hasCtx cfg =
        buildWinsLosses fetch papa hasCtx (eraseAttr cfg k) ∧
      ∃ e, buildWinsLosses fetch papa hasCtx cfg = .error e) ∧
    (∀ (fetch : String → Response) (papa : String → List Record) (hasCtx : Bool),
      k ∈ ["csv", "labelCol", "yCol"] →
      buildBar fetch papa hasCtx cfg = buildBar fetch papa hasCtx (eraseAttr cfg k) ∧
      ∃ e, buildBar fetch papa hasCtx cfg = .error e) ∧
    (∀ (fetch : String → Response) (papa : String → List Record) (hasCtx : Bool),
      k ∈ ["csv", "labelCol", "yCol"] →
      buildSimpleBar fetch papa hasCtx cfg =
        buildSimpleBar fetch papa hasCtx (eraseAttr cfg k) ∧
      ∃ e, buildSimpleBar fetch papa hasCtx cfg = .error e) ∧
    (∀ (fetch : String → Response) (papa : String → List Record) (hasCtx : Bool),
      k ∈ ["csv"] →
      buildModelComparison fetch papa hasCtx cfg =
        buildModelComparison fetch papa hasCtx (eraseAttr cfg k) ∧
      ∃ e, buildModelComparison fetch papa hasCtx cfg = .error e) ∧
    (∀ (fetch : String → Response) (papa : String → List Record) (hasCtx : Bool),
      k ∈ ["csv"] →
      buildRocCurves fetch papa hasCtx cfg =
        buildRocCurves fetch papa hasCtx (eraseAttr cfg k) ∧
      ∃ e, buildRocCurves fetch papa hasCtx cfg = .error e) ∧
    (∀ (fetch : String → Response) (papa : String → List Record) (hasCtx : Bool),
      k ∈ ["csv", "labelCol", "yCol"] →
      buildHorizontalBar fetch papa hasCtx cfg =
        buildHorizontalBar fetch papa hasCtx (eraseAttr cfg k) ∧
      ∃ e, buildHorizontalBar fetch papa hasCtx cfg = .error e) := by
  have hmiss := isMissingAttr_of_whitespace cfg k w hw hws
  have hfe := missing_filter_erase cfg k w hw hws
  refine ⟨?_, ?_, ?_, ?_, ?_, ?_, ?_⟩
  · intro keys
    unfold ensureRequired
    rw [hfe keys]
  · intro fetch papa hasCtx hk
    have hne := missing_filter_ne_nil cfg k hmiss _ hk
    have hne2 : (["csv", "labelCol", "winsCol", "lossesCol"].filter
        (fun j => isMissingAttr (eraseAttr cfg k) j)) ≠ [] := by
      rw [hfe]
      exact hne
    rw [buildWinsLosses_validation_error fetch papa hasCtx cfg hne,
      buildWinsLosses_validation_error fetch papa hasCtx (eraseAttr cfg k) hne2, hfe]
    exact ⟨rfl, _, rfl⟩
  · intro fetch papa hasCtx hk
    have hne := missing_filter_ne_nil cfg k hmiss _ hk
    have hne2 : (["csv", "labelCol", "yCol"].filter
        (fun j => isMissingAttr (eraseAttr cfg k) j)) ≠ [] := by
      rw [hfe]
      exact hne
    rw [buildBar_validation_error fetch papa hasCtx cfg hne,
      buildBar_validation_error fetch papa hasCtx (eraseAttr cfg k) hne2, hfe]
    exact ⟨rfl, _, rfl⟩
  · intro fetch papa hasCtx hk
    have hne := missing_filter_ne_nil cfg k hmiss _ hk
    have hne2 : (["csv", "labelCol", "yCol"].filter
        (fun j => isMissingAttr (eraseAttr cfg k) j)) ≠ [] := by
      rw [hfe]
      exact hne
    rw [buildSimpleBar_validation_error fetch papa hasCtx cfg hne,
      buildSimpleBar_validation_error fetch papa hasCtx (eraseAttr cfg k) hne2, hfe]
    exact ⟨rfl, _, rfl⟩
  · intro fetch papa hasCtx hk
    have hne := missing_filter_ne_nil cfg k hmiss _ hk
    have hne2 : (["csv"].filter (fun j => isMissingAttr (eraseAttr cfg k) j)) ≠ [] := by
      rw [hfe]
      exact hne
    rw [buildModelComparison_validation_error fetch papa hasCtx cfg hne,
      buildModelComparison_validation_error fetch papa hasCtx (eraseAttr cfg k) hne2, hfe]
    exact ⟨rfl, _, rfl⟩
  · intro fetch papa hasCtx hk
    have hne := missing_filter_ne_nil cfg k hmiss _ hk
    have hne2 : (["csv"].filter (fun j => isMissingAttr (eraseAttr cfg k) j)) ≠ [] := by
      rw [hfe]
      exact hne
    rw [buildRocCurves_validation_error fetch papa hasCtx cfg hne,
      buildRocCurves_validation_error fetch papa hasCtx (eraseAttr cfg k) hne2, hfe]
    exact ⟨rfl, _, rfl⟩
  · intro fetch papa hasCtx hk
    have hne := missing_filter_ne_nil cfg k hmiss _ hk
    have hne2 : (["csv", "labelCol", "yCol"].filter
        (fun j => isMissingAttr (eraseAttr cfg k) j)) ≠ [] := by
      rw [hfe]
      exact hne
    rw [buildHorizontalBar_validation_error fetch papa hasCtx cfg hne,
      buildHorizontalBar_validation_error fetch papa hasCtx (eraseAttr cfg k) hne2, hfe]
    exact ⟨rfl, _, rfl⟩

/-- Witness for C10: a whitespace-only `labelCol` behaves exactly like
an absent one for the bar builder. -/
theorem whitespace_attr_missing_witness :
    (c10cfg "labelCol" = some "  " ∧ ("  " : String) ≠ "" ∧ jsTrim "  " = "") ∧
    (ensureRequired (eraseAttr c10cfg "labelCol") ["csv", "labelCol", "yCol"] =
      ensureRequired c10cfg ["csv", "labelCol", "yCol"]) ∧
    (buildBar okFetch emptyPapa true c10cfg =
      buildBar okFetch emptyPapa true (eraseAttr c10cfg "labelCol") ∧
     ∃ e, buildBar okFetch emptyPapa true c10cfg = .error e) :=
  ⟨⟨by decide, by decide, by decide⟩,
    (whitespace_attr_missing c10cfg "labelCol" "  " (by decide) (by decide) (by decide)).1
      ["csv", "labelCol", "yCol"],
    (whitespace_attr_missing c10cfg "labelCol" "  " (by decide) (by decide) (by decide)).2.2.1
      okFetch emptyPapa true (by decide)⟩
